import Mathlib

/-!
Shallow embedding of the next-watch-recommender backend core
(`src/server/src/handlers/generate_recommendations.ts`,
`src/server/src/handlers/get_next_recommendation.ts`,
`src/server/src/handlers/create_user_interaction.ts` together with the
table shapes of `src/server/src/db/schema.ts`), and proofs about it.

Numeric columns (`vote_average`, `popularity`, `score`) are modelled as
rationals: the database stores them as fixed-precision decimals and the
handlers convert with `parseFloat`/`toString`.  All scores produced by the
scorer are multiples of 1/20, which fit the `numeric(5,4)` column exactly,
so the store/parse round trip is the identity.
-/

namespace NextWatch

/-- media_type enum of the schema: 'movie' | 'tv'. -/
inductive MediaType
  | movie
  | tv
deriving DecidableEq

/-- interaction_type enum of the schema. -/
inductive InteractionType
  | like
  | dislike
  | watched_liked
  | watched_disliked
  | add_to_watchlist
  | remove_from_watchlist
deriving DecidableEq

/-- Row of media_items.  Timestamps are abstract ticks (Nat). -/
structure MediaItem where
  id : Nat
  tmdb_id : Int
  title : String
  media_type : MediaType
  poster_path : Option String
  backdrop_path : Option String
  overview : String
  release_date : Option String
  genres : List String
  vote_average : ℚ
  vote_count : Int
  popularity : ℚ
  adult : Bool
  original_language : String
deriving DecidableEq

/-- Row of user_profiles. -/
structure UserProfile where
  id : Int
  username : String
  email : String
deriving DecidableEq

/-- Row of user_interactions.  user_id/session_id are nullable columns. -/
structure UserInteraction where
  id : Nat
  user_id : Option Int
  session_id : Option String
  media_item_id : Nat
  interaction_type : InteractionType
  created_at : Nat
  updated_at : Nat
deriving DecidableEq

/-- Row of recommendations.  score is numeric(5,4), shown defaults false. -/
structure Recommendation where
  id : Nat
  user_id : Option Int
  session_id : Option String
  media_item_id : Nat
  reason : String
  score : ℚ
  shown : Bool
  created_at : Nat
deriving DecidableEq

/-- The database state: the four tables the core touches plus the serial
id counters of the two tables the core inserts into. -/
structure DB where
  userProfiles : List UserProfile
  mediaItems : List MediaItem
  userInteractions : List UserInteraction
  recommendations : List Recommendation
  nextInteractionId : Nat
  nextRecommendationId : Nat
deriving DecidableEq

/-- GetRecommendationsInput of schema.ts: optional user_id, optional
session_id, positive limit (zod-defaulted to 10 before the handler runs). -/
structure GetRecommendationsInput where
  user_id : Option Int
  session_id : Option String
  limit : Nat
deriving DecidableEq

/-- CreateUserInteractionInput of schema.ts. -/
structure CreateUserInteractionInput where
  user_id : Option Int
  session_id : Option String
  media_item_id : Nat
  interaction_type : InteractionType
deriving DecidableEq

/-- JavaScript truthiness of an optional numeric id: absent and 0 are falsy
(the handlers guard with `!user_id`). -/
def truthyId : Option Int → Bool
  | none => false
  | some v => v != 0

/-- JavaScript truthiness of an optional string: absent and "" are falsy. -/
def truthyStr : Option String → Bool
  | none => false
  | some s => s != ""

/-- Projection selected by the first query of generateRecommendations
(user_interactions inner-joined with media_items). -/
structure JoinedInteraction where
  media_item_id : Nat
  interaction_type : InteractionType
  title : String
  genres : List String
  media_type : MediaType
  vote_average : ℚ
deriving DecidableEq

/-- Actor condition of the interaction query in generateRecommendations:
`or(eq user, eq session)` when both are truthy, `eq user` when only the
user id is truthy, otherwise `eq session`. -/
def genActorCond (input : GetRecommendationsInput) (i : UserInteraction) : Bool :=
  if truthyId input.user_id && truthyStr input.session_id then
    i.user_id == input.user_id || i.session_id == input.session_id
  else if truthyId input.user_id then
    i.user_id == input.user_id
  else
    i.session_id == input.session_id

/-- The interaction rows of the actor inner-joined with their media items
(join on media_item_id = media_items.id; ids are a primary key, so the
first row with the id is the row). -/
def userInteractionsJoined (input : GetRecommendationsInput) (db : DB) :
    List JoinedInteraction :=
  (db.userInteractions.filter (genActorCond input)).filterMap fun i =>
    (db.mediaItems.find? (fun m => m.id == i.media_item_id)).map fun m =>
      { media_item_id := i.media_item_id
        interaction_type := i.interaction_type
        title := m.title
        genres := m.genres
        media_type := m.media_type
        vote_average := m.vote_average }

/-- likedItems filter: interaction_type in ['like', 'watched_liked']. -/
def likedItemsOf (js : List JoinedInteraction) : List JoinedInteraction :=
  js.filter fun i =>
    i.interaction_type == InteractionType.like ||
    i.interaction_type == InteractionType.watched_liked

/-- JavaScript Set.add over an insertion-ordered duplicate-free list. -/
def setAdd [BEq α] (acc : List α) (x : α) : List α :=
  if acc.contains x then acc else acc ++ [x]

/-- likedGenres: the set of genres of liked items (insertion order). -/
def likedGenresOf (liked : List JoinedInteraction) : List String :=
  liked.foldl (fun acc i => i.genres.foldl setAdd acc) []

/-- likedMediaTypes: the set of media kinds of liked items. -/
def likedMediaTypesOf (liked : List JoinedInteraction) : List MediaType :=
  liked.foldl (fun acc i => setAdd acc i.media_type) []

/-- interactedMediaIds: media ids of the joined interaction rows. -/
def interactedMediaIdsOf (js : List JoinedInteraction) : List Nat :=
  js.map (fun j => j.media_item_id)

/-- Row order of the candidate query: vote_average descending, then
popularity descending (`a` may come no later than `b`). -/
def candOrder (a b : MediaItem) : Prop :=
  b.vote_average < a.vote_average ∨
    (a.vote_average = b.vote_average ∧ b.popularity ≤ a.popularity)

instance : DecidableRel candOrder := fun a b =>
  decidable_of_iff
    (b.vote_average < a.vote_average ∨
      (a.vote_average = b.vote_average ∧ b.popularity ≤ a.popularity))
    Iff.rfl

/-- Where-clause of the candidate query: exclude interacted ids when there
are any, and restrict to the single liked kind when the liked-kind set has
exactly one member (the code pushes that condition when 0 < size < 2). -/
def candidateCond (interactedIds : List Nat) (likedTypes : List MediaType)
    (m : MediaItem) : Bool :=
  (interactedIds == [] || !(interactedIds.contains m.id)) &&
    (likedTypes.length != 1 ||
      (match likedTypes with
        | t :: _ => m.media_type == t
        | [] => true))

/-- The candidate pool: filtered media items, ordered by rating then
popularity descending, limited to 3 × limit rows. -/
def candidatePool (input : GetRecommendationsInput) (db : DB) : List MediaItem :=
  let js := userInteractionsJoined input db
  let interactedIds := interactedMediaIdsOf js
  let likedTypes := likedMediaTypesOf (likedItemsOf js)
  (List.insertionSort candOrder
    (db.mediaItems.filter (candidateCond interactedIds likedTypes))).take
    (input.limit * 3)

/-- A scored candidate: the media row spread together with score and reason. -/
structure ScoredCandidate where
  item : MediaItem
  score : ℚ
  reason : String
deriving DecidableEq

/-- genre overlap of a candidate: its genres that are in the liked set,
in the candidate's native order. -/
def genreOverlapOf (likedGenres : List String) (m : MediaItem) : List String :=
  m.genres.filter (fun g => likedGenres.contains g)

/-- Decimal display of a rational whose denominator is 1 or divides 10,
mirroring JavaScript number-to-string for the stored numeric(3,1) ratings
(used only inside reason strings). -/
def ratingDisplay (q : ℚ) : String :=
  if q.den = 1 then toString q.num
  else toString ((q * 10).num / 10) ++ "." ++ toString ((q * 10).num % 10)

/-- Scoring and reason text of one candidate.  `rnd` stands for the
`Math.random()` draw used only to pick the liked item named in the
fallback reason. -/
def scoreCandidate (likedGenres : List String) (likedTypes : List MediaType)
    (likedItems : List JoinedInteraction) (rnd : Nat) (m : MediaItem) :
    ScoredCandidate :=
  let overlap := genreOverlapOf likedGenres m
  let score1 : ℚ :=
    if overlap.length > 0 then 3/10 + overlap.length * (2/10) else 3/10
  let reasons1 : List String :=
    if overlap.length > 0 then
      ["genres you enjoy: " ++ String.intercalate ", " overlap]
    else []
  let score2 : ℚ :=
    if 8 ≤ m.vote_average then score1 + 2/10
    else if 7 ≤ m.vote_average then score1 + 1/10
    else score1
  let reasons2 : List String :=
    reasons1 ++
      (if 8 ≤ m.vote_average then
        ["highly rated (" ++ ratingDisplay m.vote_average ++ "/10)"]
      else if 7 ≤ m.vote_average then
        ["well-rated (" ++ ratingDisplay m.vote_average ++ "/10)"]
      else [])
  let score3 : ℚ :=
    if likedTypes.contains m.media_type then score2 + 1/10 else score2
  let reasons3 : List String :=
    reasons2 ++
      (if likedTypes.contains m.media_type then
        ["you like " ++
          (match m.media_type with
            | MediaType.movie => "movie"
            | MediaType.tv => "tv") ++ "s"]
      else [])
  let score4 : ℚ := if 50 < m.popularity then score3 + 1/20 else score3
  let reason : String :=
    if reasons3.length > 0 then
      "Because of " ++ String.intercalate " and " reasons3
    else if likedItems.length > 0 then
      "Because you liked \"" ++
        (((likedItems.get? (rnd % likedItems.length)).map
          (fun it => it.title)).getD "") ++ "\""
    else "Recommended for you"
  { item := m, score := min (max score4 0) 1, reason := reason }

/-- Order of the in-memory sort of scored candidates: score descending
(the JavaScript comparator (a, b) =&gt; b.score - a.score, stable). -/
def scoreOrder (a b : ScoredCandidate) : Prop := b.score ≤ a.score

instance : DecidableRel scoreOrder := fun a b =>
  decidable_of_iff (b.score ≤ a.score) Iff.rfl

/-- All scored candidates of one generation call. -/
def scoredCandidatesOf (input : GetRecommendationsInput) (db : DB)
    (rnd : Nat) : List ScoredCandidate :=
  let js := userInteractionsJoined input db
  let liked := likedItemsOf js
  (candidatePool input db).map
    (scoreCandidate (likedGenresOf liked) (likedMediaTypesOf liked) liked rnd)

/-- Top candidates: sort by score descending, take limit. -/
def topCandidatesOf (input : GetRecommendationsInput) (db : DB)
    (rnd : Nat) : List ScoredCandidate :=
  (List.insertionSort scoreOrder (scoredCandidatesOf input db rnd)).take
    input.limit

/-- The rows a generation call inserts, given the serial counter and the
insertion tick.  shown is the column default false; `user_id || null`
stores null for a falsy user id (and likewise for the session id). -/
def insertedRecsOf (input : GetRecommendationsInput) (top : List ScoredCandidate)
    (nextId : Nat) (now : Nat) : List Recommendation :=
  ((List.range top.length).zip top).map fun kc =>
    { id := nextId + kc.1
      user_id := if truthyId input.user_id then input.user_id else none
      session_id := if truthyStr input.session_id then input.session_id else none
      media_item_id := kc.2.item.id
      reason := kc.2.reason
      score := kc.2.score
      shown := false
      created_at := now }

/-- generateRecommendations of generate_recommendations.ts: validate the
actor, infer preferences, build and score the candidate pool, persist the
top limit rows and return them. -/
def generateRecommendations (input : GetRecommendationsInput) (rnd : Nat)
    (now : Nat) (db : DB) : Except String (List Recommendation × DB) :=
  if !truthyId input.user_id && !truthyStr input.session_id then
    Except.error "Either user_id or session_id must be provided"
  else
    let top := topCandidatesOf input db rnd
    let newRecs := insertedRecsOf input top db.nextRecommendationId now
    Except.ok (newRecs,
      { db with
        recommendations := db.recommendations ++ newRecs
        nextRecommendationId := db.nextRecommendationId + top.length })

/-- Actor condition of get_next_recommendation.ts: presence (not
truthiness) of user_id wins, then presence of session_id, else both
columns must be stored null. -/
def recMatchesActor (input : GetRecommendationsInput) (r : Recommendation) :
    Bool :=
  match input.user_id with
  | some u => r.user_id == some u
  | none =>
    match input.session_id with
    | some s => r.session_id == some s
    | none => r.user_id == none && r.session_id == none

/-- The rows the dispenser's SELECT ranges over: unshown rows of the actor
whose media item exists (the query inner-joins media_items). -/
def pendingRecs (input : GetRecommendationsInput) (db : DB) :
    List Recommendation :=
  db.recommendations.filter fun r =>
    r.shown == false && recMatchesActor input r &&
      db.mediaItems.any (fun m => m.id == r.media_item_id)

/-- Row order of the dispenser's SELECT: score descending. -/
def recScoreOrder (a b : Recommendation) : Prop := b.score ≤ a.score

instance : DecidableRel recScoreOrder := fun a b =>
  decidable_of_iff (b.score ≤ a.score) Iff.rfl

/-- The dispenser's SELECT ... ORDER BY score DESC LIMIT 1. -/
def popSelect (input : GetRecommendationsInput) (db : DB) :
    Option Recommendation :=
  (List.insertionSort recScoreOrder (pendingRecs input db)).head?

/-- The dispenser's separate UPDATE: set shown = true where id = rid
(unconditionally, not guarded by shown = false). -/
def popMark (db : DB) (rid : Nat) : DB :=
  { db with
    recommendations := db.recommendations.map fun r =>
      if r.id == rid then { r with shown := true } else r }

/-- getNextRecommendation of get_next_recommendation.ts: SELECT the
highest-scored unshown row, then UPDATE it to shown, returning the record
as read (its shown field is the pre-update value). -/
def getNextRecommendation (input : GetRecommendationsInput) (db : DB) :
    Option Recommendation × DB :=
  match popSelect input db with
  | none => (none, db)
  | some r => (some r, popMark db r.id)

/-- One legal interleaving of two concurrent getNextRecommendation calls
for the same input: both SELECTs run before either UPDATE (each call's
own read still precedes its own write). -/
def twoConcurrentPops (input : GetRecommendationsInput) (db : DB) :
    Option Recommendation × Option Recommendation × DB :=
  let ra := popSelect input db
  let rb := popSelect input db
  let db1 := match ra with | none => db | some r => popMark db r.id
  let db2 := match rb with | none => db1 | some r => popMark db1 r.id
  (ra, rb, db2)

/-- Lookup condition of create_user_interaction.ts: same media item, and
eq on user_id when the user id is truthy, else eq on session_id when the
session id is truthy. -/
def interactionLookupCond (input : CreateUserInteractionInput)
    (i : UserInteraction) : Bool :=
  i.media_item_id == input.media_item_id &&
    (if truthyId input.user_id then i.user_id == input.user_id
     else if truthyStr input.session_id then i.session_id == input.session_id
     else true)

/-- createUserInteraction of create_user_interaction.ts: validate actor
and foreign keys, then update the existing row's kind and updated_at in
place, or insert a fresh row. -/
def createUserInteraction (input : CreateUserInteractionInput) (now : Nat)
    (db : DB) : Except String (UserInteraction × DB) :=
  if !truthyId input.user_id && !truthyStr input.session_id then
    Except.error "Either user_id or session_id must be provided"
  else if truthyId input.user_id &&
      !(db.userProfiles.any (fun p => some p.id == input.user_id)) then
    Except.error ("User with id " ++ toString (input.user_id.getD 0) ++
      " does not exist")
  else if !(db.mediaItems.any (fun m => m.id == input.media_item_id)) then
    Except.error ("Media item with id " ++ toString input.media_item_id ++
      " does not exist")
  else
    match db.userInteractions.find? (interactionLookupCond input) with
    | some existing =>
      Except.ok
        ({ existing with
            interaction_type := input.interaction_type
            updated_at := now },
          { db with
            userInteractions := db.userInteractions.map fun i =>
              if i.id == existing.id then
                { i with
                  interaction_type := input.interaction_type
                  updated_at := now }
              else i })
    | none =>
      let row : UserInteraction :=
        { id := db.nextInteractionId
          user_id := if truthyId input.user_id then input.user_id else none
          session_id := if truthyStr input.session_id then input.session_id else none
          media_item_id := input.media_item_id
          interaction_type := input.interaction_type
          created_at := now
          updated_at := now }
      Except.ok (row,
        { db with
          userInteractions := db.userInteractions ++ [row]
          nextInteractionId := db.nextInteractionId + 1 })

/-- Iterated non-overlapping getNextRecommendation calls, collecting the
returned results. -/
def popN (input : GetRecommendationsInput) :
    Nat → DB → List (Option Recommendation) × DB
  | 0, db => ([], db)
  | n + 1, db =>
    let step := getNextRecommendation input db
    let rest := popN input n step.2
    (step.1 :: rest.1, rest.2)

/-- A sequence of createUserInteraction calls (input and clock tick each);
a failed call leaves the database unchanged. -/
def runInteractions : List (CreateUserInteractionInput × Nat) → DB → DB
  | [], db => db
  | c :: rest, db =>
    match createUserInteraction c.1 c.2 db with
    | Except.error _ => runInteractions rest db
    | Except.ok rdb => runInteractions rest rdb.2

/-- The interaction rows of registered user u for media item m. -/
def userPairRows (u : Int) (m : Nat) (db : DB) : List UserInteraction :=
  db.userInteractions.filter fun i =>
    i.user_id == some u && i.media_item_id == m

/-- The interaction rows of guest session s for media item m. -/
def sessionPairRows (s : String) (m : Nat) (db : DB) : List UserInteraction :=
  db.userInteractions.filter fun i =>
    i.session_id == some s && i.media_item_id == m

/-- A write call supplies at most one truthy actor identifier (the spec's
actor model: exactly one of the two is set; the guard also admits calls
with neither, which fail without a write). -/
def singleActor (input : CreateUserInteractionInput) : Bool :=
  !(truthyId input.user_id && truthyStr input.session_id)

/-- An input whose identifiers are usable for both generation and
dispensing: a truthy user id, or no user id and a truthy session id
(generation stores `user_id || null` while the dispenser matches on
presence, so a supplied-but-falsy id would split the two). -/
def actorCoherent (input : GetRecommendationsInput) : Prop :=
  truthyId input.user_id = true ∨
    (input.user_id = none ∧ truthyStr input.session_id = true)

/-- Invariant of the interaction table maintained by the recorder:
serial ids are fresh and unique, and each (registered user, item) and
(guest session, item) pair owns at most one row. -/
def interactionInv (db : DB) : Prop :=
  (∀ i ∈ db.userInteractions, i.id < db.nextInteractionId) ∧
    List.Nodup (db.userInteractions.map (fun i => i.id)) ∧
    (∀ u m, (userPairRows u m db).length ≤ 1) ∧
    (∀ s m, (sessionPairRows s m db).length ≤ 1)

/-- Whether the first list starts with the second. -/
def seqStarts [BEq α] : List α → List α → Bool
  | _, [] => true
  | [], _ :: _ => false
  | a :: as, b :: bs => a == b && seqStarts as bs

/-- Whether the second list occurs contiguously inside the first
(used to state that a reason string contains a given substring). -/
def seqOccurs [BEq α] : List α → List α → Bool
  | [], pat => pat.isEmpty
  | a :: rest, pat => seqStarts (a :: rest) pat || seqOccurs rest pat

/-- Helper for building concrete media rows in the test scenarios. -/
def mkMedia (i : Nat) (t : String) (mt : MediaType) (gs : List String)
    (va pop : ℚ) : MediaItem :=
  { id := i, tmdb_id := Int.ofNat i, title := t, media_type := mt
    poster_path := none, backdrop_path := none, overview := ""
    release_date := none, genres := gs, vote_average := va
    vote_count := 0, popularity := pop, adult := false
    original_language := "en" }

/-- The scenario's single recorded interaction: user 1 liked item 1. -/
def c6Interaction : UserInteraction :=
  { id := 1, user_id := some 1, session_id := none, media_item_id := 1
    interaction_type := InteractionType.like, created_at := 0, updated_at := 0 }

/-- Scenario of the spec's numerical test case: one liked Action and
Adventure movie rated 9.0, candidates A (Action, 8.5, popularity 60) and
B (Comedy, 6.0, popularity 10). -/
def c6DB : DB :=
  { userProfiles := [{ id := 1, username := "u", email := "e" }]
    mediaItems :=
      [ mkMedia 1 "Liked Movie" MediaType.movie ["Action", "Adventure"] 9 50
      , mkMedia 2 "Item A" MediaType.movie ["Action"] (17/2) 60
      , mkMedia 3 "Item B" MediaType.movie ["Comedy"] 6 10 ]
    userInteractions := [c6Interaction]
    recommendations := []
    nextInteractionId := 2
    nextRecommendationId := 1 }

/-- Input of the numerical scenario: user 1, limit 1. -/
def c6Input : GetRecommendationsInput :=
  { user_id := some 1, session_id := none, limit := 1 }

/-- The row the scenario's generation call persists and returns. -/
def c6Rec : Recommendation :=
  { id := 1, user_id := some 1, session_id := none, media_item_id := 2
    reason := "Because of genres you enjoy: Action and highly rated (8.5/10) and you like movies"
    score := 17/20, shown := false, created_at := 5 }

/-- The database after the scenario's generation call. -/
def c6DBAfter : DB :=
  { c6DB with recommendations := [c6Rec], nextRecommendationId := 2 }

/-- State with exactly one pending (unshown) recommendation row. -/
def c3Rec : Recommendation :=
  { id := 1, user_id := some 1, session_id := none, media_item_id := 1
    reason := "r", score := 9/10, shown := false, created_at := 0 }

/-- Database of the concurrency scenario: one unshown row pending. -/
def c3DB : DB :=
  { userProfiles := []
    mediaItems := [mkMedia 1 "M" MediaType.movie ["Action"] 8 60]
    userInteractions := []
    recommendations := [c3Rec]
    nextInteractionId := 1
    nextRecommendationId := 2 }

/-- Dispenser input of the concurrency scenario. -/
def c3Input : GetRecommendationsInput :=
  { user_id := some 1, session_id := none, limit := 10 }

/-- Input with a supplied but falsy (zero) user id. -/
def c8Input : GetRecommendationsInput :=
  { user_id := some 0, session_id := none, limit := 10 }

/-- An empty database. -/
def c8DB : DB :=
  { userProfiles := [], mediaItems := [], userInteractions := []
    recommendations := [], nextInteractionId := 1, nextRecommendationId := 1 }

/-- Catalog with two movies for the generate-then-dispense scenario. -/
def c4DB : DB :=
  { userProfiles := []
    mediaItems :=
      [ mkMedia 1 "X" MediaType.movie ["A"] 8 60
      , mkMedia 2 "Y" MediaType.movie ["B"] 7 10 ]
    userInteractions := []
    recommendations := []
    nextInteractionId := 1
    nextRecommendationId := 1 }

/-- Input of the generate-then-dispense scenario: user 7, limit 2. -/
def c4Input : GetRecommendationsInput :=
  { user_id := some 7, session_id := none, limit := 2 }

/-- First row generated in the scenario (score 0.55). -/
def c4Rec1 : Recommendation :=
  { id := 1, user_id := some 7, session_id := none, media_item_id := 1
    reason := "Because of highly rated (8/10)", score := 11/20
    shown := false, created_at := 0 }

/-- Second row generated in the scenario (score 0.4). -/
def c4Rec2 : Recommendation :=
  { id := 2, user_id := some 7, session_id := none, media_item_id := 2
    reason := "Because of well-rated (7/10)", score := 2/5
    shown := false, created_at := 0 }

/-- Database after the scenario's generation call. -/
def c4DBAfter : DB :=
  { c4DB with recommendations := [c4Rec1, c4Rec2], nextRecommendationId := 3 }

/-- A pending recommendation row used to exercise the dispenser. -/
def w2Rec : Recommendation :=
  { id := 1, user_id := some 2, session_id := none, media_item_id := 1
    reason := "w", score := 3/4, shown := false, created_at := 0 }

/-- Database with one pending row and its media item. -/
def w2DB : DB :=
  { userProfiles := []
    mediaItems := [mkMedia 1 "W" MediaType.tv ["Drama"] 7 20]
    userInteractions := []
    recommendations := [w2Rec]
    nextInteractionId := 1
    nextRecommendationId := 2 }

/-- Dispenser input matching w2Rec. -/
def w2Input : GetRecommendationsInput :=
  { user_id := some 2, session_id := none, limit := 10 }

/-- Two recordings by user 1 on media item 5: a like then a dislike. -/
def c7Calls : List (CreateUserInteractionInput × Nat) :=
  [ ({ user_id := some 1, session_id := none, media_item_id := 5
       interaction_type := InteractionType.like }, 1)
  , ({ user_id := some 1, session_id := none, media_item_id := 5
       interaction_type := InteractionType.dislike }, 2) ]

/-- Initial database of the double-recording scenario. -/
def c7DB0 : DB :=
  { userProfiles := [{ id := 1, username := "u", email := "e" }]
    mediaItems := [mkMedia 5 "M" MediaType.movie ["Action"] 8 60]
    userInteractions := []
    recommendations := []
    nextInteractionId := 1
    nextRecommendationId := 1 }

/-- Catalog of the repeated-generation scenario: one movie. -/
def dupDB : DB :=
  { userProfiles := []
    mediaItems := [mkMedia 1 "M" MediaType.movie ["A"] 8 60]
    userInteractions := []
    recommendations := []
    nextInteractionId := 1
    nextRecommendationId := 1 }

/-- Input of the repeated-generation scenario: user 1, limit 1. -/
def dupInput : GetRecommendationsInput :=
  { user_id := some 1, session_id := none, limit := 1 }

/-- The row the first generation call persists. -/
def dupRec1 : Recommendation :=
  { id := 1, user_id := some 1, session_id := none, media_item_id := 1
    reason := "Because of highly rated (8/10)", score := 11/20
    shown := false, created_at := 0 }

/-- Database after the first generation call. -/
def dupDB1 : DB :=
  { dupDB with recommendations := [dupRec1], nextRecommendationId := 2 }

/-- The row the second generation call persists: same actor and media
item as dupRec1, in a new row. -/
def dupRec2 : Recommendation :=
  { id := 2, user_id := some 1, session_id := none, media_item_id := 1
    reason := "Because of highly rated (8/10)", score := 11/20
    shown := false, created_at := 1 }

/-- Database after the second generation call. -/
def dupDB2 : DB :=
  { dupDB with recommendations := [dupRec1, dupRec2], nextRecommendationId := 3 }

instance : IsTotal Recommendation recScoreOrder :=
  ⟨fun a b => le_total b.score a.score⟩

instance : IsTrans Recommendation recScoreOrder :=
  ⟨fun _ _ _ hab hbc => le_trans hbc hab⟩

instance : IsTotal ScoredCandidate scoreOrder :=
  ⟨fun a b => le_total b.score a.score⟩

instance : IsTrans ScoredCandidate scoreOrder :=
  ⟨fun _ _ _ hab hbc => le_trans hbc hab⟩

instance : IsTotal MediaItem candOrder := by
  refine ⟨fun a b => ?_⟩
  rcases lt_trichotomy a.vote_average b.vote_average with h | h | h
  · exact Or.inr (Or.inl h)
  · rcases le_total b.popularity a.popularity with hp | hp
    · exact Or.inl (Or.inr ⟨h, hp⟩)
    · exact Or.inr (Or.inr ⟨h.symm, hp⟩)
  · exact Or.inl (Or.inl h)

instance : IsTrans MediaItem candOrder := by
  refine ⟨fun a b c hab hbc => ?_⟩
  rcases hab with h1 | ⟨h1, p1⟩
  · rcases hbc with h2 | ⟨h2, p2⟩
    · exact Or.inl (h2.trans h1)
    · exact Or.inl (by rw [← h2]; exact h1)
  · rcases hbc with h2 | ⟨h2, p2⟩
    · exact Or.inl (by rw [h1]; exact h2)
    · exact Or.inr ⟨h1.trans h2, le_trans p2 p1⟩

/-- Head of an insertion sort is in the list and r-dominates every element. -/
theorem sort_head_max {α : Type} (r : α → α → Prop) [DecidableRel r]
    [IsTotal α r] [IsTrans α r] (hrefl : ∀ a, r a a) (l : List α) (x : α)
    (hx : (List.insertionSort r l).head? = some x) :
    x ∈ l ∧ ∀ y ∈ l, r x y := by
  cases hs : List.insertionSort r l with
  | nil => rw [hs] at hx; cases hx
  | cons a t =>
    rw [hs] at hx
    simp only [List.head?_cons, Option.some.injEq] at hx
    subst hx
    have hmem : a ∈ List.insertionSort r l := by
      rw [hs]; exact List.mem_cons_self a t
    refine ⟨(List.mem_insertionSort r).mp hmem, fun y hy => ?_⟩
    have hy' : y ∈ List.insertionSort r l := (List.mem_insertionSort r).mpr hy
    rw [hs] at hy'
    rcases List.mem_cons.mp hy' with h | h
    · rw [h]; exact hrefl a
    · have hsorted : List.Sorted r (List.insertionSort r l) :=
        List.sorted_insertionSort r l
      rw [hs] at hsorted
      exact List.rel_of_sorted_cons hsorted y h

/-- Membership in the dispenser's pending set, unfolded. -/
theorem mem_pendingRecs {input : GetRecommendationsInput} {db : DB}
    {r : Recommendation} :
    r ∈ pendingRecs input db ↔
      r ∈ db.recommendations ∧ r.shown = false ∧
        recMatchesActor input r = true ∧
        ∃ m ∈ db.mediaItems, m.id = r.media_item_id := by
  simp [pendingRecs, List.mem_filter, List.any_eq_true, and_assoc]

/-- The dispenser returns the none result exactly when its pending set is
empty. -/
theorem pop_none_iff {input : GetRecommendationsInput} {db : DB} :
    (getNextRecommendation input db).1 = none ↔ pendingRecs input db = [] := by
  constructor
  · intro h
    cases hsel : popSelect input db with
    | none =>
      have := hsel
      unfold popSelect at this
      have hnil : List.insertionSort recScoreOrder (pendingRecs input db) = [] :=
        List.head?_eq_none_iff.mp this
      have hlen := List.length_insertionSort recScoreOrder (pendingRecs input db)
      rw [hnil] at hlen
      exact List.length_eq_zero.mp hlen.symm
    | some r =>
      unfold getNextRecommendation at h
      rw [hsel] at h
      cases h
  · intro h
    unfold getNextRecommendation popSelect
    rw [h]
    rfl

/-- When the SELECT finds a row, the call returns it, it is pending, and
it has the maximum score among pending rows; the UPDATE marks its id. -/
theorem pop_some_spec {input : GetRecommendationsInput} {db : DB}
    {r : Recommendation} (h : popSelect input db = some r) :
    getNextRecommendation input db = (some r, popMark db r.id) ∧
      r ∈ pendingRecs input db ∧
      ∀ y ∈ pendingRecs input db, y.score ≤ r.score := by
  have hmax := sort_head_max recScoreOrder (fun a => le_refl a.score)
    (pendingRecs input db) r h
  refine ⟨?_, hmax.1, hmax.2⟩
  unfold getNextRecommendation
  rw [h]

/-- C3: the dispenser performs a separate SELECT and an unguarded UPDATE,
so in the interleaving where both concurrent calls run their SELECT before
either UPDATE, both calls return the single pending row.  This refutes the
claim that the check and set happen in one atomic conditional-update step. -/
theorem c3_concurrent_both_return :
    pendingRecs c3Input c3DB = [c3Rec] ∧
      (twoConcurrentPops c3Input c3DB).1 = some c3Rec ∧
      (twoConcurrentPops c3Input c3DB).2.1 = some c3Rec := by
  refine ⟨?_, ?_, ?_⟩ <;> with_unfolding_all rfl

/-- C6 counterexample: in the spec's scenario the generation call returns
item A with score 0.85, not the claimed 1.0 — the heuristic sum
0.3 + 0.2 + 0.2 + 0.1 + 0.05 is 0.85, which the clamp leaves unchanged. -/
theorem c6_claim_counterexample :
    generateRecommendations c6Input 0 5 c6DB = Except.ok ([c6Rec], c6DBAfter) ∧
      c6Rec.media_item_id = 2 ∧ c6Rec.score = 17/20 ∧ c6Rec.score ≠ 1 := by
  refine ⟨by with_unfolding_all rfl, rfl, by with_unfolding_all rfl, ?_⟩
  with_unfolding_all decide

/-- C6 amended: the scenario returns exactly item A, with score
clamp(0.3 + 0.2 × 1 + 0.2 + 0.1 + 0.05) = 0.85 and a reason containing
"Action". -/
theorem c6_amended_scenario :
    generateRecommendations c6Input 0 5 c6DB = Except.ok ([c6Rec], c6DBAfter) ∧
      c6Rec.media_item_id = 2 ∧
      c6Rec.score = min (max ((3:ℚ)/10 + (2/10) * 1 + 2/10 + 1/10 + 1/20) 0) 1 ∧
      c6Rec.score = 17/20 ∧
      seqOccurs c6Rec.reason.toList "Action".toList = true := by
  refine ⟨by with_unfolding_all rfl, rfl, ?_, ?_, ?_⟩ <;> with_unfolding_all rfl

/-- C8 counterexample: an input that does supply a user id (the value 0)
still fails the falsy-actor guard, so the error is not equivalent to
"neither identifier supplied". -/
theorem c8_claim_counterexample :
    c8Input.user_id ≠ none ∧
      generateRecommendations c8Input 0 0 c8DB =
        Except.error "Either user_id or session_id must be provided" := by
  exact ⟨by decide, by with_unfolding_all rfl⟩

/-- C2: a single getNextRecommendation call returns a maximum-score
unshown row of the actor and marks exactly that row shown; when the actor
has no unshown row, the call returns the none result with the state
untouched (a normal result — the return type carries no error case). -/
theorem c2_pop_next_spec (input : GetRecommendationsInput) (db : DB)
    (hmedia : ∀ r ∈ db.recommendations,
      ∃ m ∈ db.mediaItems, m.id = r.media_item_id) :
    ((getNextRecommendation input db).1 = none →
      (getNextRecommendation input db).2 = db ∧
        ∀ r ∈ db.recommendations, recMatchesActor input r = true →
          r.shown = true) ∧
    (∀ rec, (getNextRecommendation input db).1 = some rec →
      rec ∈ db.recommendations ∧ rec.shown = false ∧
        recMatchesActor input rec = true ∧
        (∀ r ∈ db.recommendations, recMatchesActor input r = true →
          r.shown = false → r.score ≤ rec.score) ∧
        { rec with shown := true } ∈
          (getNextRecommendation input db).2.recommendations ∧
        (∀ r ∈ db.recommendations, r.id ≠ rec.id →
          r ∈ (getNextRecommendation input db).2.recommendations) ∧
        (getNextRecommendation input db).2.recommendations.length =
          db.recommendations.length) := by
  constructor
  · intro h
    have hpend := pop_none_iff.mp h
    constructor
    · cases hsel : popSelect input db with
      | none => unfold getNextRecommendation; rw [hsel]
      | some r =>
        unfold getNextRecommendation at h
        rw [hsel] at h
        cases h
    · intro r hr hmatch
      by_contra hshown
      have hfalse : r.shown = false := by
        cases hsh : r.shown
        · rfl
        · exact absurd hsh hshown
      have hmem : r ∈ pendingRecs input db :=
        mem_pendingRecs.mpr ⟨hr, hfalse, hmatch, hmedia r hr⟩
      rw [hpend] at hmem
      cases hmem
  · intro rec h
    cases hsel : popSelect input db with
    | none =>
      unfold getNextRecommendation at h
      rw [hsel] at h
      cases h
    | some r0 =>
      have hspec := pop_some_spec hsel
      have heq : r0 = rec := by
        rw [hspec.1] at h
        exact Option.some.inj h
      subst heq
      obtain ⟨hin, hsh, hmt, _⟩ := mem_pendingRecs.mp hspec.2.1
      refine ⟨hin, hsh, hmt, ?_, ?_, ?_, ?_⟩
      · intro r' hr' hmt' hsh'
        exact hspec.2.2 r' (mem_pendingRecs.mpr ⟨hr', hsh', hmt', hmedia r' hr'⟩)
      · rw [hspec.1]
        simp only [popMark]
        refine List.mem_map.mpr ⟨r0, hin, ?_⟩
        simp
      · intro r' hr' hne
        rw [hspec.1]
        simp only [popMark]
        refine List.mem_map.mpr ⟨r', hr', ?_⟩
        have hbeq : (r'.id == r0.id) = false := by
          simp only [beq_eq_false_iff_ne, ne_eq]
          exact hne
        simp [hbeq]
      · rw [hspec.1]
        simp [popMark]

/-- C2 witness: on a concrete state with one pending row, the hypotheses
hold and the dispensed row is marked shown. -/
theorem c2_pop_next_spec_witness :
    (∀ r ∈ w2DB.recommendations, ∃ m ∈ w2DB.mediaItems,
      m.id = r.media_item_id) ∧
      { w2Rec with shown := true } ∈
        (getNextRecommendation w2Input w2DB).2.recommendations := by
  have hmedia : ∀ r ∈ w2DB.recommendations,
      ∃ m ∈ w2DB.mediaItems, m.id = r.media_item_id := by decide
  refine ⟨hmedia, ?_⟩
  have h := (c2_pop_next_spec w2Input w2DB hmedia).2 w2Rec
    (by with_unfolding_all rfl)
  exact h.2.2.2.2.1

/-- C10: when the dispenser returns a record, the returned record still
has shown = false (the value read before the UPDATE), while every stored
row with its id has shown = true once the call completes. -/
theorem c10_returned_shown_false (input : GetRecommendationsInput) (db : DB)
    (rec : Recommendation)
    (h : (getNextRecommendation input db).1 = some rec) :
    rec.shown = false ∧
      ∀ r ∈ (getNextRecommendation input db).2.recommendations,
        r.id = rec.id → r.shown = true := by
  cases hsel : popSelect input db with
  | none =>
    unfold getNextRecommendation at h
    rw [hsel] at h
    cases h
  | some r0 =>
    have hspec := pop_some_spec hsel
    have heq : r0 = rec := by
      rw [hspec.1] at h
      exact Option.some.inj h
    subst heq
    obtain ⟨hin, hsh, _, _⟩ := mem_pendingRecs.mp hspec.2.1
    refine ⟨hsh, ?_⟩
    intro r hr hid
    rw [hspec.1] at hr
    simp only [popMark] at hr
    obtain ⟨orig, horig, hfeq⟩ := List.mem_map.mp hr
    by_cases hcase : (orig.id == r0.id) = true
    · rw [if_pos hcase] at hfeq
      rw [← hfeq]
    · rw [if_neg (by simpa using hcase)] at hfeq
      rw [← hfeq] at hid
      exact absurd (beq_iff_eq.mpr hid) hcase

/-- C10 witness: the concrete pending row is returned with shown = false. -/
theorem c10_returned_shown_false_witness :
    (getNextRecommendation w2Input w2DB).1 = some w2Rec ∧
      w2Rec.shown = false := by
  have h : (getNextRecommendation w2Input w2DB).1 = some w2Rec := by
    with_unfolding_all rfl
  exact ⟨h, (c10_returned_shown_false w2Input w2DB w2Rec h).1⟩

/-- Rows inserted by one generation call are in bijection with the top
candidates. -/
theorem length_insertedRecsOf (input : GetRecommendationsInput)
    (top : List ScoredCandidate) (nid now : Nat) :
    (insertedRecsOf input top nid now).length = top.length := by
  simp [insertedRecsOf]

/-- The top candidate list never exceeds the requested limit. -/
theorem length_topCandidatesOf (input : GetRecommendationsInput) (db : DB)
    (rnd : Nat) :
    (topCandidatesOf input db rnd).length ≤ input.limit := by
  simp only [topCandidatesOf, List.length_take]
  exact Nat.min_le_left _ _

/-- Each inserted row carries the fields of one top candidate. -/
theorem mem_generated {input : GetRecommendationsInput} {rnd now : Nat}
    {db : DB} {recs : List Recommendation} {db' : DB}
    (h : generateRecommendations input rnd now db = Except.ok (recs, db')) :
    ∀ r ∈ recs, ∃ sc ∈ topCandidatesOf input db rnd,
      r.media_item_id = sc.item.id ∧ r.score = sc.score ∧
      r.reason = sc.reason ∧ r.shown = false ∧ r.created_at = now ∧
      r.user_id = (if truthyId input.user_id then input.user_id else none) ∧
      r.session_id =
        (if truthyStr input.session_id then input.session_id else none) := by
  intro r hr
  simp only [generateRecommendations] at h
  split at h
  · exact absurd h (by simp)
  · rw [Except.ok.injEq, Prod.mk.injEq] at h
    obtain ⟨hrecs, _⟩ := h
    rw [← hrecs] at hr
    simp only [insertedRecsOf, List.mem_map] at hr
    obtain ⟨kc, hkc, rfl⟩ := hr
    exact ⟨kc.2, (List.of_mem_zip hkc).2, rfl, rfl, rfl, rfl, rfl, rfl, rfl⟩

/-- Each top candidate is the scoring of some pool item. -/
theorem mem_topCandidates {input : GetRecommendationsInput} {db : DB}
    {rnd : Nat} :
    ∀ sc ∈ topCandidatesOf input db rnd, ∃ m ∈ candidatePool input db,
      sc = scoreCandidate
        (likedGenresOf (likedItemsOf (userInteractionsJoined input db)))
        (likedMediaTypesOf (likedItemsOf (userInteractionsJoined input db)))
        (likedItemsOf (userInteractionsJoined input db)) rnd m := by
  intro sc hsc
  have h1 : sc ∈ List.insertionSort scoreOrder (scoredCandidatesOf input db rnd) :=
    (List.take_sublist _ _).subset hsc
  have h2 : sc ∈ scoredCandidatesOf input db rnd :=
    (List.mem_insertionSort scoreOrder).mp h1
  simp only [scoredCandidatesOf, List.mem_map] at h2
  obtain ⟨m, hm, rfl⟩ := h2
  exact ⟨m, hm, rfl⟩

/-- Pool items come from the media table and satisfy the query's
where-clause. -/
theorem candidatePool_subset {input : GetRecommendationsInput} {db : DB} :
    ∀ m ∈ candidatePool input db, m ∈ db.mediaItems ∧
      candidateCond (interactedMediaIdsOf (userInteractionsJoined input db))
        (likedMediaTypesOf (likedItemsOf (userInteractionsJoined input db)))
        m = true := by
  intro m hm
  simp only [candidatePool] at hm
  have h1 := (List.take_sublist _ _).subset hm
  have h2 := (List.mem_insertionSort candOrder).mp h1
  exact ⟨List.mem_of_mem_filter h2, List.of_mem_filter h2⟩

/-- The score of one candidate, written as the claim's closed formula. -/
theorem scoreCandidate_score (lg : List String) (lt : List MediaType)
    (li : List JoinedInteraction) (rnd : Nat) (m : MediaItem) :
    (scoreCandidate lg lt li rnd m).score =
      min (max ((3:ℚ)/10 + ((genreOverlapOf lg m).length : ℚ) * (2/10)
        + (if 8 ≤ m.vote_average then (2:ℚ)/10
            else if 7 ≤ m.vote_average then 1/10 else 0)
        + (if lt.contains m.media_type then (1:ℚ)/10 else 0)
        + (if 50 < m.popularity then (1:ℚ)/20 else 0)) 0) 1 := by
  unfold scoreCandidate
  dsimp only
  by_cases h0 : (genreOverlapOf lg m).length > 0
  · rw [if_pos h0]
    refine congrArg (fun x => min (max x 0) 1) ?_
    split_ifs <;> ring
  · rw [if_neg h0]
    have hz : (((genreOverlapOf lg m).length : ℕ) : ℚ) = 0 := by
      rw [Nat.eq_zero_of_not_pos h0]
      norm_num
    rw [hz]
    refine congrArg (fun x => min (max x 0) 1) ?_
    split_ifs <;> ring

/-- C1: every recommendation persisted by a generation call scores its
media item as 0.3, plus 0.2 per genre shared with the liked genre set,
plus the rating bonus (0.2 at 8.0, else 0.1 at 7.0), plus 0.1 for a liked
media kind, plus 0.05 above popularity 50, clamped to the unit interval;
hence every persisted score lies in the closed interval from 0 to 1. -/
theorem c1_score_formula (input : GetRecommendationsInput) (rnd now : Nat)
    (db : DB) (recs : List Recommendation) (db' : DB)
    (h : generateRecommendations input rnd now db = Except.ok (recs, db')) :
    ∀ rec ∈ recs,
      (∃ m ∈ db.mediaItems, rec.media_item_id = m.id ∧
        rec.score = min (max ((3:ℚ)/10
          + ((m.genres.filter (fun g =>
              (likedGenresOf (likedItemsOf
                (userInteractionsJoined input db))).contains g)).length : ℚ)
            * (2/10)
          + (if 8 ≤ m.vote_average then (2:ℚ)/10
              else if 7 ≤ m.vote_average then 1/10 else 0)
          + (if (likedMediaTypesOf (likedItemsOf
              (userInteractionsJoined input db))).contains m.media_type
              then (1:ℚ)/10 else 0)
          + (if 50 < m.popularity then (1:ℚ)/20 else 0)) 0) 1) ∧
      0 ≤ rec.score ∧ rec.score ≤ 1 := by
  intro rec hrec
  obtain ⟨sc, hsc, hmid, hscore, _⟩ := mem_generated h rec hrec
  obtain ⟨m, hm, hsceq⟩ := mem_topCandidates sc hsc
  have hitem : sc.item = m := by rw [hsceq]; rfl
  have hscform := scoreCandidate_score
    (likedGenresOf (likedItemsOf (userInteractionsJoined input db)))
    (likedMediaTypesOf (likedItemsOf (userInteractionsJoined input db)))
    (likedItemsOf (userInteractionsJoined input db)) rnd m
  rw [← hsceq] at hscform
  refine ⟨⟨m, (candidatePool_subset m hm).1, ?_, ?_⟩, ?_, ?_⟩
  · rw [hmid, hitem]
  · rw [hscore, hscform]
    rfl
  · rw [hscore, hscform]
    exact le_min (le_max_right _ 0) zero_le_one
  · rw [hscore, hscform]
    exact min_le_right _ 1

/-- C1 witness: the scenario generation call satisfies the hypothesis and
its persisted row's score is within bounds. -/
theorem c1_score_formula_witness :
    generateRecommendations c6Input 0 5 c6DB = Except.ok ([c6Rec], c6DBAfter) ∧
      0 ≤ c6Rec.score ∧ c6Rec.score ≤ 1 := by
  have h : generateRecommendations c6Input 0 5 c6DB =
      Except.ok ([c6Rec], c6DBAfter) := by
    with_unfolding_all rfl
  have hall := c1_score_formula c6Input 0 5 c6DB [c6Rec] c6DBAfter h c6Rec
    (List.mem_singleton.mpr rfl)
  exact ⟨h, hall.2⟩

/-- C8 amended: generation fails with the InvalidActor error exactly when
neither a truthy user id (present and nonzero) nor a truthy session id
(present and non-empty) is supplied; with at least one truthy identifier
it succeeds, returning at most limit rows (possibly zero — an empty or
small candidate pool is not an error). -/
theorem c8_amended_invalid_actor (input : GetRecommendationsInput)
    (rnd now : Nat) (db : DB) :
    (generateRecommendations input rnd now db =
        Except.error "Either user_id or session_id must be provided" ↔
      truthyId input.user_id = false ∧ truthyStr input.session_id = false) ∧
    (truthyId input.user_id = true ∨ truthyStr input.session_id = true →
      ∃ recs db', generateRecommendations input rnd now db =
        Except.ok (recs, db') ∧ recs.length ≤ input.limit) := by
  have hguard : (!truthyId input.user_id && !truthyStr input.session_id) = true ↔
      truthyId input.user_id = false ∧ truthyStr input.session_id = false := by
    cases truthyId input.user_id <;> cases truthyStr input.session_id <;> simp
  by_cases hg : (!truthyId input.user_id && !truthyStr input.session_id) = true
  · have hRW : generateRecommendations input rnd now db =
        Except.error "Either user_id or session_id must be provided" := by
      simp only [generateRecommendations, hg, if_true]
    obtain ⟨h1, h2⟩ := hguard.mp hg
    constructor
    · rw [hRW]
      simp [h1, h2]
    · intro hor
      rcases hor with h | h
      · rw [h1] at h; cases h
      · rw [h2] at h; cases h
  · have hg' : (!truthyId input.user_id && !truthyStr input.session_id) = false := by
      cases hb : (!truthyId input.user_id && !truthyStr input.session_id)
      · rfl
      · exact absurd hb hg
    have hRW : generateRecommendations input rnd now db =
        Except.ok (insertedRecsOf input (topCandidatesOf input db rnd)
            db.nextRecommendationId now,
          { db with
            recommendations := db.recommendations ++
              insertedRecsOf input (topCandidatesOf input db rnd)
                db.nextRecommendationId now
            nextRecommendationId := db.nextRecommendationId +
              (topCandidatesOf input db rnd).length }) := by
      simp only [generateRecommendations, hg', Bool.false_eq_true, if_false]
    constructor
    · rw [hRW]
      constructor
      · intro h; cases h
      · intro hc
        exact absurd (hguard.mpr hc) hg
    · intro _
      refine ⟨_, _, hRW, ?_⟩
      rw [length_insertedRecsOf]
      exact length_topCandidatesOf input db rnd

/-- C9: a generation call inserts between 0 and limit new rows, all with
shown = false, appended after the untouched prior rows; its returned rows
do not depend on the prior Recommendation rows at all; and two successive
calls can persist two distinct rows for the same (actor, media item)
pair, as the concrete repeated-generation scenario shows. -/
theorem c9_generation_frame :
    (∀ (input : GetRecommendationsInput) (rnd now : Nat) (db : DB)
        (recs : List Recommendation) (db' : DB),
      generateRecommendations input rnd now db = Except.ok (recs, db') →
      recs.length ≤ input.limit ∧ (∀ r ∈ recs, r.shown = false) ∧
        db'.recommendations = db.recommendations ++ recs ∧
        db'.userProfiles = db.userProfiles ∧
        db'.mediaItems = db.mediaItems ∧
        db'.userInteractions = db.userInteractions) ∧
    (∀ (input : GetRecommendationsInput) (rnd now : Nat) (db : DB)
        (recs1 recs2 : List Recommendation),
      Except.map Prod.fst (generateRecommendations input rnd now
          { db with recommendations := recs1 }) =
        Except.map Prod.fst (generateRecommendations input rnd now
          { db with recommendations := recs2 })) ∧
    (generateRecommendations dupInput 0 0 dupDB =
        Except.ok ([dupRec1], dupDB1) ∧
      generateRecommendations dupInput 0 1 dupDB1 =
        Except.ok ([dupRec2], dupDB2) ∧
      dupRec1.id ≠ dupRec2.id ∧ dupRec1.user_id = dupRec2.user_id ∧
      dupRec1.media_item_id = dupRec2.media_item_id ∧
      dupRec1 ∈ dupDB2.recommendations ∧
      dupRec2 ∈ dupDB2.recommendations) := by
  refine ⟨?_, ?_, ?_⟩
  · intro input rnd now db recs db' h
    simp only [generateRecommendations] at h
    split at h
    · cases h
    · rw [Except.ok.injEq, Prod.mk.injEq] at h
      obtain ⟨hrecs, hdb⟩ := h
      subst hdb
      subst hrecs
      refine ⟨?_, ?_, rfl, rfl, rfl, rfl⟩
      · rw [length_insertedRecsOf]
        exact length_topCandidatesOf input db rnd
      · intro r hr
        simp only [insertedRecsOf, List.mem_map] at hr
        obtain ⟨kc, _, rfl⟩ := hr
        rfl
  · intro input rnd now db recs1 recs2
    by_cases hg : (!truthyId input.user_id && !truthyStr input.session_id) = true
    · simp only [generateRecommendations, hg, if_true]
    · have hg' : (!truthyId input.user_id && !truthyStr input.session_id) = false := by
        cases hb : (!truthyId input.user_id && !truthyStr input.session_id)
        · rfl
        · exact absurd hb hg
      simp only [generateRecommendations, hg', Bool.false_eq_true, if_false]
      rfl
  · refine ⟨?_, ?_, ?_, ?_, ?_, ?_, ?_⟩
    · with_unfolding_all rfl
    · with_unfolding_all rfl
    · with_unfolding_all decide
    · rfl
    · rfl
    · with_unfolding_all decide
    · with_unfolding_all decide

/-- C9 witness: the first repeated-generation call satisfies the
hypothesis, and its new row is appended after the prior rows. -/
theorem c9_generation_frame_witness :
    generateRecommendations dupInput 0 0 dupDB =
        Except.ok ([dupRec1], dupDB1) ∧
      dupDB1.recommendations = dupDB.recommendations ++ [dupRec1] := by
  have h : generateRecommendations dupInput 0 0 dupDB =
      Except.ok ([dupRec1], dupDB1) := by
    with_unfolding_all rfl
  exact ⟨h, (c9_generation_frame.1 dupInput 0 0 dupDB [dupRec1] dupDB1 h).2.2.1⟩

/-- Interacted item ids are exactly the joined interactions' media ids. -/
theorem mem_interactedIds {input : GetRecommendationsInput} {db : DB}
    {i : UserInteraction} (hi : i ∈ db.userInteractions)
    (hcond : genActorCond input i = true)
    (hmedia : ∃ m ∈ db.mediaItems, m.id = i.media_item_id) :
    i.media_item_id ∈ interactedMediaIdsOf (userInteractionsJoined input db) := by
  obtain ⟨m, hm, hmid⟩ := hmedia
  have hfind : (db.mediaItems.find? (fun mm => mm.id == i.media_item_id)).isSome := by
    rw [List.find?_isSome]
    exact ⟨m, hm, beq_iff_eq.mpr hmid⟩
  obtain ⟨mm, hmm⟩ := Option.isSome_iff_exists.mp hfind
  simp only [interactedMediaIdsOf, List.mem_map]
  refine ⟨{ media_item_id := i.media_item_id, interaction_type := i.interaction_type
            title := mm.title, genres := mm.genres, media_type := mm.media_type
            vote_average := mm.vote_average }, ?_, rfl⟩
  simp only [userInteractionsJoined, List.mem_filterMap]
  refine ⟨i, List.mem_filter.mpr ⟨hi, hcond⟩, ?_⟩
  rw [hmm]
  rfl

/-- C5: the candidate pool excludes every media item the actor has any
recorded interaction with (hence no returned recommendation references an
interacted item); it is restricted to a single media kind exactly when the
liked-kind set has one member, otherwise only the exclusion filter
applies; and it is the initial segment of length at most 3 × limit of the
remaining items sorted by rating descending then popularity descending. -/
theorem c5_candidate_pool (input : GetRecommendationsInput) (rnd now : Nat)
    (db : DB) :
    (∀ m ∈ candidatePool input db, ∀ i ∈ db.userInteractions,
        genActorCond input i = true → i.media_item_id ≠ m.id) ∧
    (∀ recs db', generateRecommendations input rnd now db =
        Except.ok (recs, db') →
      ∀ r ∈ recs, ∀ i ∈ db.userInteractions,
        genActorCond input i = true → i.media_item_id ≠ r.media_item_id) ∧
    (∀ t, likedMediaTypesOf (likedItemsOf (userInteractionsJoined input db)) =
        [t] → ∀ m ∈ candidatePool input db, m.media_type = t) ∧
    ((likedMediaTypesOf (likedItemsOf (userInteractionsJoined input db))).length
        ≠ 1 →
      candidatePool input db =
        (List.insertionSort candOrder (db.mediaItems.filter (fun m =>
          interactedMediaIdsOf (userInteractionsJoined input db) == [] ||
            !((interactedMediaIdsOf (userInteractionsJoined input db)).contains
              m.id)))).take (input.limit * 3)) ∧
    List.Sorted candOrder (candidatePool input db) ∧
    (candidatePool input db).length ≤ input.limit * 3 ∧
    (∃ rest, candidatePool input db ++ rest =
      List.insertionSort candOrder (db.mediaItems.filter
        (candidateCond (interactedMediaIdsOf (userInteractionsJoined input db))
          (likedMediaTypesOf (likedItemsOf (userInteractionsJoined input db)))))) := by
  have hexcl : ∀ m ∈ candidatePool input db, ∀ i ∈ db.userInteractions,
      genActorCond input i = true → i.media_item_id ≠ m.id := by
    intro m hm i hi hcond heq
    have hids : m.id ∈ interactedMediaIdsOf (userInteractionsJoined input db) := by
      rw [← heq]
      exact mem_interactedIds hi hcond ⟨m, (candidatePool_subset m hm).1, heq.symm⟩
    have hcc := (candidatePool_subset m hm).2
    simp only [candidateCond, Bool.and_eq_true, Bool.or_eq_true] at hcc
    rcases hcc.1 with hnil | hnc
    · rw [beq_iff_eq.mp hnil] at hids
      cases hids
    · have hc : (interactedMediaIdsOf (userInteractionsJoined input db)).contains
          m.id = true := by
        simp only [List.contains]
        exact List.elem_iff.mpr hids
      rw [Bool.not_eq_true'] at hnc
      rw [hc] at hnc
      cases hnc
  refine ⟨hexcl, ?_, ?_, ?_, ?_, ?_, ?_⟩
  · intro recs db' h r hr i hi hcond
    obtain ⟨sc, hsc, hmid, _⟩ := mem_generated h r hr
    obtain ⟨m, hm, hsceq⟩ := mem_topCandidates sc hsc
    have hitem : sc.item = m := by rw [hsceq]; rfl
    rw [hmid, hitem]
    exact hexcl m hm i hi hcond
  · intro t ht m hm
    have hcc := (candidatePool_subset m hm).2
    rw [ht] at hcc
    simp only [candidateCond, Bool.and_eq_true, Bool.or_eq_true] at hcc
    rcases hcc.2 with hlen | hmt
    · simp at hlen
    · exact beq_iff_eq.mp hmt
  · intro hne
    simp only [candidatePool]
    have hfe : db.mediaItems.filter
        (candidateCond (interactedMediaIdsOf (userInteractionsJoined input db))
          (likedMediaTypesOf (likedItemsOf (userInteractionsJoined input db)))) =
        db.mediaItems.filter (fun m =>
          interactedMediaIdsOf (userInteractionsJoined input db) == [] ||
            !((interactedMediaIdsOf (userInteractionsJoined input db)).contains
              m.id)) := by
      apply List.filter_congr
      intro m _
      have hB : ((likedMediaTypesOf (likedItemsOf
          (userInteractionsJoined input db))).length != 1) = true :=
        bne_iff_ne.mpr hne
      simp [candidateCond, hB]
    rw [hfe]
  · exact List.Pairwise.sublist (List.take_sublist _ _)
      (List.sorted_insertionSort candOrder _)
  · simp only [candidatePool, List.length_take]
    exact Nat.min_le_left _ _
  · exact ⟨_, List.take_append_drop _ _⟩

/-- C5 witness: in the concrete scenario the liked interaction's item is
never among the returned recommendations. -/
theorem c5_candidate_pool_witness :
    genActorCond c6Input c6Interaction = true ∧
      generateRecommendations c6Input 0 5 c6DB =
        Except.ok ([c6Rec], c6DBAfter) ∧
      c6Interaction.media_item_id ≠ c6Rec.media_item_id := by
  have hgen : generateRecommendations c6Input 0 5 c6DB =
      Except.ok ([c6Rec], c6DBAfter) := by
    with_unfolding_all rfl
  have hact : genActorCond c6Input c6Interaction = true := by
    with_unfolding_all rfl
  refine ⟨hact, hgen, ?_⟩
  exact (c5_candidate_pool c6Input 0 5 c6DB).2.1 [c6Rec] c6DBAfter hgen c6Rec
    (List.mem_singleton.mpr rfl) c6Interaction (by decide) hact

/-- find? returns the unique satisfying element. -/
theorem find?_eq_of_unique {α : Type} (p : α → Bool) (l : List α) (r : α)
    (hr : r ∈ l) (hp : p r = true)
    (huniq : ∀ x ∈ l, p x = true → x = r) :
    l.find? p = some r := by
  induction l with
  | nil => cases hr
  | cons a t ih =>
    by_cases ha : p a = true
    · rw [List.find?_cons_of_pos _ ha]
      rw [huniq a (List.mem_cons_self a t) ha]
    · rw [List.find?_cons_of_neg _ ha]
      rcases List.mem_cons.mp hr with h | h
      · rw [h] at hp
        exact absurd hp ha
      · exact ih h (fun x hx hpx => huniq x (List.mem_cons_of_mem a hx) hpx)

/-- A filter with at most one survivor identifies its members. -/
theorem eq_of_filter_length_le_one {α : Type} {p : α → Bool} {l : List α}
    (h : (l.filter p).length ≤ 1) {x y : α}
    (hx : x ∈ l) (hpx : p x = true) (hy : y ∈ l) (hpy : p y = true) :
    x = y := by
  have hxf : x ∈ l.filter p := List.mem_filter.mpr ⟨hx, hpx⟩
  have hyf : y ∈ l.filter p := List.mem_filter.mpr ⟨hy, hpy⟩
  cases hf : l.filter p with
  | nil => rw [hf] at hxf; cases hxf
  | cons a t =>
    have ht : t = [] := by
      rw [hf] at h
      simp only [List.length_cons] at h
      exact List.length_eq_zero.mp (Nat.le_zero.mp (Nat.le_of_succ_le_succ h))
    rw [hf, ht] at hxf hyf
    rw [List.mem_singleton.mp hxf, List.mem_singleton.mp hyf]

/-- One successful recording call preserves the interaction invariant. -/
theorem createUserInteraction_inv {input : CreateUserInteractionInput}
    {now : Nat} {db : DB} {res : UserInteraction} {db' : DB}
    (hinv : interactionInv db) (hsingle : singleActor input = true)
    (h : createUserInteraction input now db = Except.ok (res, db')) :
    interactionInv db' := by
  obtain ⟨hbound, hnd, huser, hsess⟩ := hinv
  cases hfind : db.userInteractions.find? (interactionLookupCond input) with
  | some existing =>
    simp only [createUserInteraction, hfind] at h
    split at h
    · cases h
    · split at h
      · cases h
      · split at h
        · cases h
        · rw [Except.ok.injEq, Prod.mk.injEq] at h
          obtain ⟨hres, hdb⟩ := h
          subst hdb
          have hfid : ∀ i : UserInteraction,
              ((if i.id == existing.id then
                { i with interaction_type := input.interaction_type
                         updated_at := now } else i) : UserInteraction).id =
                i.id := by
            intro i
            split <;> rfl
          have hmapid :
              ((db.userInteractions.map fun i =>
                if i.id == existing.id then
                  { i with interaction_type := input.interaction_type
                           updated_at := now } else i).map fun i => i.id) =
                db.userInteractions.map fun i => i.id := by
            rw [List.map_map]
            exact List.map_congr_left (fun i _ => hfid i)
          refine ⟨?_, ?_, ?_, ?_⟩
          · intro i hi
            obtain ⟨o, ho, rfl⟩ := List.mem_map.mp hi
            rw [hfid o]
            exact hbound o ho
          · rw [hmapid]
            exact hnd
          · intro u m
            simp only [userPairRows]
            rw [List.filter_map, List.length_map]
            have hfe : db.userInteractions.filter
                ((fun i : UserInteraction =>
                  i.user_id == some u && i.media_item_id == m) ∘ fun i =>
                    if i.id == existing.id then
                      { i with interaction_type := input.interaction_type
                               updated_at := now } else i) =
                db.userInteractions.filter (fun i =>
                  i.user_id == some u && i.media_item_id == m) := by
              apply List.filter_congr
              intro i _
              simp only [Function.comp]
              split <;> rfl
            rw [hfe]
            exact huser u m
          · intro s m
            simp only [sessionPairRows]
            rw [List.filter_map, List.length_map]
            have hfe : db.userInteractions.filter
                ((fun i : UserInteraction =>
                  i.session_id == some s && i.media_item_id == m) ∘ fun i =>
                    if i.id == existing.id then
                      { i with interaction_type := input.interaction_type
                               updated_at := now } else i) =
                db.userInteractions.filter (fun i =>
                  i.session_id == some s && i.media_item_id == m) := by
              apply List.filter_congr
              intro i _
              simp only [Function.comp]
              split <;> rfl
            rw [hfe]
            exact hsess s m
  | none =>
    simp only [createUserInteraction, hfind] at h
    split at h
    · cases h
    · split at h
      · cases h
      · split at h
        · cases h
        · rw [Except.ok.injEq, Prod.mk.injEq] at h
          obtain ⟨hres, hdb⟩ := h
          subst hdb
          have hnone := List.find?_eq_none.mp hfind
          refine ⟨?_, ?_, ?_, ?_⟩
          · intro i hi
            rcases List.mem_append.mp hi with h1 | h1
            · exact Nat.lt_succ_of_lt (hbound i h1)
            · rw [List.mem_singleton.mp h1]
              exact Nat.lt_succ_self _
          · rw [List.map_append]
            refine List.Nodup.append hnd (List.nodup_singleton _) ?_
            intro x hx1 hx2
            obtain ⟨i, hi, hxi⟩ := List.mem_map.mp hx1
            have hxi' : i.id = x := hxi
            have hx2' : x = db.nextInteractionId := List.mem_singleton.mp hx2
            have hlt := hbound i hi
            omega
          · intro u m
            simp only [userPairRows, List.filter_append]
            by_cases hrow : truthyId input.user_id = true ∧
                input.user_id = some u ∧ input.media_item_id = m
            · obtain ⟨htr, hue, hme⟩ := hrow
              have hfl : db.userInteractions.filter (fun i =>
                  i.user_id == some u && i.media_item_id == m) = [] := by
                rw [List.filter_eq_nil]
                intro i hi hpi
                apply hnone i hi
                simp only [Bool.and_eq_true, beq_iff_eq] at hpi
                simp only [interactionLookupCond, htr, if_true,
                  Bool.and_eq_true, beq_iff_eq]
                exact ⟨by rw [hpi.2, hme], by rw [hpi.1, hue]⟩
              rw [hfl]
              simp only [List.nil_append, List.length_filter_le, List.length_cons]
              have := List.length_filter_le (fun i : UserInteraction =>
                i.user_id == some u && i.media_item_id == m) [
                { id := db.nextInteractionId
                  user_id := if truthyId input.user_id then input.user_id else none
                  session_id := if truthyStr input.session_id then
                    input.session_id else none
                  media_item_id := input.media_item_id
                  interaction_type := input.interaction_type
                  created_at := now, updated_at := now }]
              simpa using this
            · have hfr : List.filter (fun i : UserInteraction =>
                  i.user_id == some u && i.media_item_id == m) [
                  { id := db.nextInteractionId
                    user_id := if truthyId input.user_id then input.user_id else none
                    session_id := if truthyStr input.session_id then
                      input.session_id else none
                    media_item_id := input.media_item_id
                    interaction_type := input.interaction_type
                    created_at := now, updated_at := now }] = [] := by
                rw [List.filter_eq_nil]
                intro i hi hpi
                rw [List.mem_singleton.mp hi] at hpi
                simp only [Bool.and_eq_true, beq_iff_eq] at hpi
                apply hrow
                obtain ⟨h1, h2⟩ := hpi
                by_cases htr : truthyId input.user_id = true
                · rw [if_pos htr] at h1
                  exact ⟨htr, h1, h2⟩
                · rw [if_neg htr] at h1
                  cases h1
              rw [hfr, List.append_nil]
              exact huser u m
          · intro s m
            simp only [sessionPairRows, List.filter_append]
            by_cases hrow : truthyStr input.session_id = true ∧
                input.session_id = some s ∧ input.media_item_id = m
            · obtain ⟨hts, hse, hme⟩ := hrow
              have htu : truthyId input.user_id = false := by
                simp only [singleActor, Bool.not_eq_true', Bool.and_eq_false_iff]
                  at hsingle
                rcases hsingle with h1 | h1
                · exact h1
                · rw [h1] at hts
                  cases hts
              have hfl : db.userInteractions.filter (fun i =>
                  i.session_id == some s && i.media_item_id == m) = [] := by
                rw [List.filter_eq_nil]
                intro i hi hpi
                apply hnone i hi
                simp only [Bool.and_eq_true, beq_iff_eq] at hpi
                simp only [interactionLookupCond, htu, Bool.false_eq_true,
                  if_false, hts, if_true, Bool.and_eq_true, beq_iff_eq]
                exact ⟨by rw [hpi.2, hme], by rw [hpi.1, hse]⟩
              rw [hfl]
              have := List.length_filter_le (fun i : UserInteraction =>
                i.session_id == some s && i.media_item_id == m) [
                { id := db.nextInteractionId
                  user_id := if truthyId input.user_id then input.user_id else none
                  session_id := if truthyStr input.session_id then
                    input.session_id else none
                  media_item_id := input.media_item_id
                  interaction_type := input.interaction_type
                  created_at := now, updated_at := now }]
              simpa using this
            · have hfr : List.filter (fun i : UserInteraction =>
                  i.session_id == some s && i.media_item_id == m) [
                  { id := db.nextInteractionId
                    user_id := if truthyId input.user_id then input.user_id else none
                    session_id := if truthyStr input.session_id then
                      input.session_id else none
                    media_item_id := input.media_item_id
                    interaction_type := input.interaction_type
                    created_at := now, updated_at := now }] = [] := by
                rw [List.filter_eq_nil]
                intro i hi hpi
                rw [List.mem_singleton.mp hi] at hpi
                simp only [Bool.and_eq_true, beq_iff_eq] at hpi
                apply hrow
                obtain ⟨h1, h2⟩ := hpi
                by_cases hts : truthyStr input.session_id = true
                · rw [if_pos hts] at h1
                  exact ⟨hts, h1, h2⟩
                · rw [if_neg hts] at h1
                  cases h1
              rw [hfr, List.append_nil]
              exact hsess s m

/-- A sequence of well-formed recording calls preserves the invariant. -/
theorem runInteractions_inv (calls : List (CreateUserInteractionInput × Nat)) :
    ∀ db : DB, interactionInv db →
      (∀ c ∈ calls, singleActor c.1 = true) →
      interactionInv (runInteractions calls db) := by
  induction calls with
  | nil => intro db h _; exact h
  | cons c rest ih =>
    intro db h hall
    simp only [runInteractions]
    cases hc : createUserInteraction c.1 c.2 db with
    | error e =>
      exact ih db h (fun x hx => hall x (List.mem_cons_of_mem c hx))
    | ok rdb =>
      refine ih rdb.2 ?_ (fun x hx => hall x (List.mem_cons_of_mem c hx))
      exact createUserInteraction_inv h (hall c (List.mem_cons_self c rest))
        (by rw [hc])

/-- C7: starting from an empty interaction log, any sequence of recording
calls (each supplying one actor identifier) leaves at most one row per
(registered user, item) and per (guest session, item) pair; and a second
recording for a pair that already owns a row updates that row's kind and
last-modified time in place, preserving its id, creation time and actor
columns, leaving the row count and all other rows unchanged, with the
visible kind equal to the most recent write. -/
theorem c7_single_row_per_pair :
    (∀ (calls : List (CreateUserInteractionInput × Nat)) (db0 : DB),
      db0.userInteractions = [] →
      (∀ c ∈ calls, singleActor c.1 = true) →
      (∀ u m, (userPairRows u m (runInteractions calls db0)).length ≤ 1) ∧
      (∀ s m, (sessionPairRows s m (runInteractions calls db0)).length ≤ 1)) ∧
    (∀ (input : CreateUserInteractionInput) (now : Nat) (db : DB)
        (r res : UserInteraction) (db' : DB),
      interactionInv db → singleActor input = true →
      r ∈ db.userInteractions → interactionLookupCond input r = true →
      createUserInteraction input now db = Except.ok (res, db') →
      res.id = r.id ∧ res.created_at = r.created_at ∧
      res.interaction_type = input.interaction_type ∧ res.updated_at = now ∧
      res.user_id = r.user_id ∧ res.session_id = r.session_id ∧
      db'.userInteractions.length = db.userInteractions.length ∧
      res ∈ db'.userInteractions ∧
      (∀ i ∈ db.userInteractions, i.id ≠ r.id →
        i ∈ db'.userInteractions)) := by
  constructor
  · intro calls db0 h0 hall
    have hinv0 : interactionInv db0 := by
      refine ⟨?_, ?_, ?_, ?_⟩ <;>
        simp [h0, userPairRows, sessionPairRows]
    have := runInteractions_inv calls db0 hinv0 hall
    exact ⟨this.2.2.1, this.2.2.2⟩
  · intro input now db r res db' hinv hsingle hr hcond h
    obtain ⟨hbound, hnd, huser, hsess⟩ := hinv
    have hfind : db.userInteractions.find? (interactionLookupCond input) =
        some r := by
      apply find?_eq_of_unique _ _ r hr hcond
      intro x hx hpx
      by_cases htr : truthyId input.user_id = true
      · obtain ⟨u, hue⟩ : ∃ u, input.user_id = some u := by
          cases hui : input.user_id with
          | none => rw [hui] at htr; cases htr
          | some u => exact ⟨u, rfl⟩
        have hchar : ∀ i : UserInteraction, interactionLookupCond input i = true →
            (i.user_id == some u && i.media_item_id == input.media_item_id) =
              true := by
          intro i hc
          simp only [interactionLookupCond, htr, if_true,
            Bool.and_eq_true] at hc
          simp only [Bool.and_eq_true]
          refine ⟨?_, hc.1⟩
          rw [← hue]
          exact hc.2
        exact eq_of_filter_length_le_one (huser u input.media_item_id) hx
          (hchar x hpx) hr (hchar r hcond)
      · have hts : truthyStr input.session_id = true := by
          cases hts : truthyStr input.session_id
          · exfalso
            simp only [createUserInteraction, Bool.not_eq_true'] at h
            rw [Bool.not_eq_true] at htr
            rw [htr, hts] at h
            simp at h
          · rfl
        obtain ⟨s, hse⟩ : ∃ s, input.session_id = some s := by
          cases hsi : input.session_id with
          | none => rw [hsi] at hts; cases hts
          | some s => exact ⟨s, rfl⟩
        have hchar : ∀ i : UserInteraction, interactionLookupCond input i = true →
            (i.session_id == some s && i.media_item_id == input.media_item_id) =
              true := by
          intro i hc
          rw [Bool.not_eq_true] at htr
          simp only [interactionLookupCond, htr, Bool.false_eq_true, if_false,
            hts, if_true, Bool.and_eq_true] at hc
          simp only [Bool.and_eq_true]
          refine ⟨?_, hc.1⟩
          rw [← hse]
          exact hc.2
        exact eq_of_filter_length_le_one (hsess s input.media_item_id) hx
          (hchar x hpx) hr (hchar r hcond)
    simp only [createUserInteraction, hfind] at h
    split at h
    · cases h
    · split at h
      · cases h
      · split at h
        · cases h
        · rw [Except.ok.injEq, Prod.mk.injEq] at h
          obtain ⟨hres, hdb⟩ := h
          subst hdb
          rw [← hres]
          refine ⟨rfl, rfl, rfl, rfl, rfl, rfl, ?_, ?_, ?_⟩
          · exact List.length_map _ _
          · refine List.mem_map.mpr ⟨r, hr, ?_⟩
            rw [if_pos (beq_self_eq_true r.id)]
          · intro i hi hine
            refine List.mem_map.mpr ⟨i, hi, ?_⟩
            rw [if_neg (fun hb => hine (beq_iff_eq.mp hb))]

/-- C7 witness: the like-then-dislike scenario leaves one row for the
pair. -/
theorem c7_single_row_per_pair_witness :
    c7DB0.userInteractions = [] ∧
      (∀ c ∈ c7Calls, singleActor c.1 = true) ∧
      (userPairRows 1 5 (runInteractions c7Calls c7DB0)).length ≤ 1 := by
  refine ⟨rfl, by decide, ?_⟩
  exact (c7_single_row_per_pair.1 c7Calls c7DB0 rfl (by decide)).1 1 5

/-- Unfolding of one iteration step. -/
theorem popN_succ (input : GetRecommendationsInput) (n : Nat) (db : DB) :
    popN input (n + 1) db =
      ((getNextRecommendation input db).1 ::
        (popN input n (getNextRecommendation input db).2).1,
       (popN input n (getNextRecommendation input db).2).2) := rfl

/-- The UPDATE leaves every row with the marked id shown. -/
theorem popMark_sets {db : DB} {rid : Nat} :
    ∀ row ∈ (popMark db rid).recommendations, row.id = rid →
      row.shown = true := by
  intro row hrow hid
  simp only [popMark] at hrow
  obtain ⟨o, ho, hfeq⟩ := List.mem_map.mp hrow
  by_cases hc : (o.id == rid) = true
  · rw [if_pos hc] at hfeq
    rw [← hfeq]
  · rw [if_neg hc] at hfeq
    rw [← hfeq] at hid
    exact absurd (beq_iff_eq.mpr hid) hc

/-- The UPDATE never clears a shown flag: ids fully shown stay shown. -/
theorem popMark_preserves {db : DB} {rid k : Nat}
    (h : ∀ row ∈ db.recommendations, row.id = k → row.shown = true) :
    ∀ row ∈ (popMark db rid).recommendations, row.id = k →
      row.shown = true := by
  intro row hrow hid
  simp only [popMark] at hrow
  obtain ⟨o, ho, hfeq⟩ := List.mem_map.mp hrow
  by_cases hc : (o.id == rid) = true
  · rw [if_pos hc] at hfeq
    rw [← hfeq]
  · rw [if_neg hc] at hfeq
    rw [← hfeq] at hid ⊢
    exact h o ho hid

/-- One dispenser call preserves fully-shown ids. -/
theorem pop_preserves_shownId (input : GetRecommendationsInput) (db : DB)
    (k : Nat)
    (h : ∀ row ∈ db.recommendations, row.id = k → row.shown = true) :
    ∀ row ∈ (getNextRecommendation input db).2.recommendations,
      row.id = k → row.shown = true := by
  cases hsel : popSelect input db with
  | none =>
    unfold getNextRecommendation
    rw [hsel]
    exact h
  | some r =>
    rw [(pop_some_spec hsel).1]
    exact popMark_preserves h

/-- A returned record was a pending row of the pre-state. -/
theorem pop_returned_pending {input : GetRecommendationsInput} {db : DB}
    {r : Recommendation}
    (h : (getNextRecommendation input db).1 = some r) :
    r ∈ db.recommendations ∧ r.shown = false ∧
      recMatchesActor input r = true := by
  cases hsel : popSelect input db with
  | none =>
    unfold getNextRecommendation at h
    rw [hsel] at h
    cases h
  | some r0 =>
    have hspec := pop_some_spec hsel
    have heq : r0 = r := by
      rw [hspec.1] at h
      exact Option.some.inj h
    subst heq
    obtain ⟨a, b, c, _⟩ := mem_pendingRecs.mp hspec.2.1
    exact ⟨a, b, c⟩

/-- Over a fully-shown id, iterated calls never return a row with that id
and keep the id fully shown. -/
theorem popN_avoids (input : GetRecommendationsInput) (k : Nat) :
    ∀ (n : Nat) (db : DB),
      (∀ row ∈ db.recommendations, row.id = k → row.shown = true) →
      (∀ o ∈ (popN input n db).1, ∀ r, o = some r → r.id ≠ k) ∧
      (∀ row ∈ (popN input n db).2.recommendations, row.id = k →
        row.shown = true) := by
  intro n
  induction n with
  | zero =>
    intro db h
    refine ⟨?_, h⟩
    intro o ho r hor
    simp only [popN, List.not_mem_nil] at ho
  | succ n ih =>
    intro db h
    rw [popN_succ]
    have hstep := pop_preserves_shownId input db k h
    constructor
    · intro o ho r hor
      rcases List.mem_cons.mp ho with h1 | h1
      · intro hrk
        rw [hor] at h1
        obtain ⟨hin, hsh, _⟩ := pop_returned_pending h1.symm
        have := h r hin hrk
        rw [hsh] at this
        cases this
      · exact (ih _ hstep).1 o h1 r hor
    · exact (ih _ hstep).2

/-- C4 helper: the ids returned by iterated calls are pairwise distinct —
no row is dispensed twice. -/
theorem popN_nodup_ids (input : GetRecommendationsInput) :
    ∀ (n : Nat) (db : DB),
      List.Nodup (((popN input n db).1.filterMap id).map
        (fun r => r.id)) := by
  intro n
  induction n with
  | zero => intro db; exact List.nodup_nil
  | succ n ih =>
    intro db
    rw [popN_succ]
    cases hstep : (getNextRecommendation input db).1 with
    | none =>
      simp only [List.filterMap_cons, id_eq]
      exact ih _
    | some r =>
      simp only [List.filterMap_cons, id_eq, List.map_cons]
      refine List.nodup_cons.mpr ⟨?_, ih _⟩
      intro hmem
      obtain ⟨r', hr', hid⟩ := List.mem_map.mp hmem
      obtain ⟨o, ho, hor⟩ := List.mem_filterMap.mp hr'
      have hshown : ∀ row ∈ (getNextRecommendation input db).2.recommendations,
          row.id = r.id → row.shown = true := by
        cases hsel : popSelect input db with
        | none =>
          unfold getNextRecommendation at hstep
          rw [hsel] at hstep
          cases hstep
        | some r0 =>
          have hspec := pop_some_spec hsel
          have heq : r0 = r := by
            rw [hspec.1] at hstep
            exact Option.some.inj hstep
          subst heq
          rw [hspec.1]
          exact popMark_sets
      have havoid := (popN_avoids input r.id n
        ((getNextRecommendation input db).2) hshown).1
      exact havoid o ho r' hor hid

/-- After the UPDATE, the pending set is the old one minus the marked id. -/
theorem pending_popMark {input : GetRecommendationsInput} {db : DB}
    {rid : Nat} :
    pendingRecs input (popMark db rid) =
      (pendingRecs input db).filter (fun p => !(p.id == rid)) := by
  simp only [pendingRecs, popMark]
  rw [List.filter_map]
  have hcong : db.recommendations.filter
      ((fun r : Recommendation => r.shown == false && recMatchesActor input r &&
        db.mediaItems.any (fun m => m.id == r.media_item_id)) ∘ fun r =>
          if r.id == rid then { r with shown := true } else r) =
      db.recommendations.filter (fun r =>
        !(r.id == rid) &&
        (r.shown == false && recMatchesActor input r &&
          db.mediaItems.any (fun m => m.id == r.media_item_id))) := by
    apply List.filter_congr
    intro r _
    simp only [Function.comp]
    by_cases hc : (r.id == rid) = true
    · rw [if_pos hc, hc]
      simp
    · rw [if_neg hc, Bool.not_eq_true] at *
      rw [hc]
      simp
  rw [hcong, ← List.filter_filter]
  have hid : ∀ x ∈ (db.recommendations.filter (fun r =>
      r.shown == false && recMatchesActor input r &&
        db.mediaItems.any (fun m => m.id == r.media_item_id))).filter
      (fun p => !(p.id == rid)),
      (fun r : Recommendation =>
        if r.id == rid then { r with shown := true } else r) x = id x := by
    intro x hx
    have hxne := List.of_mem_filter hx
    rw [Bool.not_eq_true'] at hxne
    dsimp only
    rw [if_neg (by rw [hxne]; exact Bool.false_ne_true)]
    rfl
  rw [List.map_congr_left hid, List.map_id]

/-- Removing one pending row by its id shortens the pending set by exactly
one and keeps the ids distinct. -/
theorem filter_ne_length {l : List Recommendation} {r : Recommendation}
    (hr : r ∈ l) (hnd : List.Nodup (l.map (fun x => x.id))) :
    ((l.filter (fun p => !(p.id == r.id))).length) + 1 = l.length ∧
    List.Nodup ((l.filter (fun p => !(p.id == r.id))).map
      (fun x => x.id)) := by
  constructor
  case right =>
    exact List.Nodup.sublist (List.Sublist.map _ (List.filter_sublist l)) hnd
  case left =>
    obtain ⟨s, t, rfl⟩ := List.append_of_mem hr
    rw [List.map_append, List.map_cons] at hnd
    rw [List.nodup_append] at hnd
    obtain ⟨_, hnd2, hdisj⟩ := hnd
    have hs : ∀ x ∈ s, x.id ≠ r.id := by
      intro x hx hc
      apply hdisj (List.mem_map_of_mem (fun y : Recommendation => y.id) hx)
      show x.id ∈ r.id :: List.map (fun y : Recommendation => y.id) t
      rw [hc]
      exact List.mem_cons_self _ _
    have ht : ∀ x ∈ t, x.id ≠ r.id := by
      intro x hx hc
      apply (List.nodup_cons.mp hnd2).1
      show r.id ∈ List.map (fun y : Recommendation => y.id) t
      rw [← hc]
      exact List.mem_map_of_mem (fun y : Recommendation => y.id) hx
    rw [List.filter_append, List.filter_cons]
    have hsf : s.filter (fun p => !(p.id == r.id)) = s := by
      rw [List.filter_eq_self]
      intro a ha
      simp only [Bool.not_eq_true']
      exact beq_eq_false_iff_ne.mpr (hs a ha)
    have htf : t.filter (fun p => !(p.id == r.id)) = t := by
      rw [List.filter_eq_self]
      intro a ha
      simp only [Bool.not_eq_true']
      exact beq_eq_false_iff_ne.mpr (ht a ha)
    rw [hsf, htf]
    rw [if_neg (by simp)]
    simp [List.length_append]
    omega

/-- A nonempty pending set makes the SELECT return a row. -/
theorem popSelect_isSome {input : GetRecommendationsInput} {db : DB}
    (h : pendingRecs input db ≠ []) :
    ∃ r, popSelect input db = some r := by
  unfold popSelect
  cases hs : List.insertionSort recScoreOrder (pendingRecs input db) with
  | nil =>
    exfalso
    have := List.length_insertionSort recScoreOrder (pendingRecs input db)
    rw [hs] at this
    exact h (List.length_eq_zero.mp this.symm)
  | cons a t => exact ⟨a, rfl⟩

/-- Draining k pending rows: k + 1 iterated calls produce k results in
non-increasing score order followed by the none result. -/
theorem popN_drain (input : GetRecommendationsInput) :
    ∀ (n : Nat) (db : DB), (pendingRecs input db).length = n →
      List.Nodup ((pendingRecs input db).map (fun r => r.id)) →
      ∃ rs : List Recommendation,
        (popN input (n + 1) db).1 = rs.map some ++ [none] ∧
        rs.length = n ∧
        List.Pairwise (fun a b => b.score ≤ a.score) rs ∧
        ∀ r ∈ rs, r ∈ pendingRecs input db := by
  intro n
  induction n with
  | zero =>
    intro db hlen _
    have hnil : pendingRecs input db = [] := List.length_eq_zero.mp hlen
    have hpop : getNextRecommendation input db = (none, db) := by
      unfold getNextRecommendation popSelect
      rw [hnil]
      rfl
    refine ⟨[], ?_, rfl, List.Pairwise.nil, by simp⟩
    rw [popN_succ, hpop]
    rfl
  | succ n ih =>
    intro db hlen hnd
    have hne : pendingRecs input db ≠ [] := by
      intro hc
      rw [hc] at hlen
      cases hlen
    obtain ⟨r, hsel⟩ := popSelect_isSome hne
    have hspec := pop_some_spec hsel
    have hpend1 : pendingRecs input (popMark db r.id) =
        (pendingRecs input db).filter (fun p => !(p.id == r.id)) :=
      pending_popMark
    have hfl := filter_ne_length hspec.2.1 hnd
    have hlen1 : (pendingRecs input (popMark db r.id)).length = n := by
      rw [hpend1]
      omega
    have hnd1 : List.Nodup ((pendingRecs input (popMark db r.id)).map
        (fun x => x.id)) := by
      rw [hpend1]
      exact hfl.2
    obtain ⟨rs, h1, h2, h3, h4⟩ := ih (popMark db r.id) hlen1 hnd1
    refine ⟨r :: rs, ?_, by simp [h2], ?_, ?_⟩
    · rw [popN_succ, hspec.1]
      dsimp only
      rw [h1]
      rfl
    · refine List.pairwise_cons.mpr ⟨?_, h3⟩
      intro b hb
      have hbp : b ∈ pendingRecs input db := by
        have := h4 b hb
        rw [hpend1] at this
        exact List.mem_of_mem_filter this
      exact hspec.2.2 b hbp
    · intro x hx
      rcases List.mem_cons.mp hx with h | h
      · rw [h]
        exact hspec.2.1
      · have := h4 x h
        rw [hpend1] at this
        exact List.mem_of_mem_filter this

/-- After a generation call into a state with no rows matching the actor,
the pending set is exactly the inserted batch, whose ids are distinct. -/
theorem pending_after_generate {input : GetRecommendationsInput}
    {rnd now : Nat} {db : DB} {recs : List Recommendation} {db' : DB}
    (hco : actorCoherent input)
    (hprior : ∀ r ∈ db.recommendations, recMatchesActor input r = false)
    (h : generateRecommendations input rnd now db = Except.ok (recs, db')) :
    pendingRecs input db' = recs ∧
      List.Nodup (recs.map (fun r => r.id)) := by
  simp only [generateRecommendations] at h
  split at h
  · cases h
  · rw [Except.ok.injEq, Prod.mk.injEq] at h
    obtain ⟨hrecs, hdb⟩ := h
    subst hdb
    subst hrecs
    constructor
    · simp only [pendingRecs]
      rw [List.filter_append]
      have h1 : db.recommendations.filter (fun r =>
          r.shown == false && recMatchesActor input r &&
            db.mediaItems.any (fun m => m.id == r.media_item_id)) = [] := by
        rw [List.filter_eq_nil]
        intro r hr
        rw [hprior r hr]
        simp
      have h2 : (insertedRecsOf input (topCandidatesOf input db rnd)
          db.nextRecommendationId now).filter (fun r =>
          r.shown == false && recMatchesActor input r &&
            db.mediaItems.any (fun m => m.id == r.media_item_id)) =
          insertedRecsOf input (topCandidatesOf input db rnd)
            db.nextRecommendationId now := by
        rw [List.filter_eq_self]
        intro r hrr
        simp only [insertedRecsOf, List.mem_map] at hrr
        obtain ⟨kc, hkc, rfl⟩ := hrr
        have hsc := (List.of_mem_zip hkc).2
        obtain ⟨m, hm, hsceq⟩ := mem_topCandidates _ hsc
        have hmedia : db.mediaItems.any (fun mm =>
            mm.id == kc.2.item.id) = true := by
          rw [List.any_eq_true]
          refine ⟨m, (candidatePool_subset m hm).1, ?_⟩
          rw [hsceq]
          exact beq_self_eq_true _
        have hmatch : recMatchesActor input
            { id := db.nextRecommendationId + kc.1
              user_id := if truthyId input.user_id then input.user_id else none
              session_id := if truthyStr input.session_id then
                input.session_id else none
              media_item_id := kc.2.item.id
              reason := kc.2.reason
              score := kc.2.score
              shown := false
              created_at := now } = true := by
          rcases hco with htu | ⟨hun, hts⟩
          · obtain ⟨u, hue⟩ : ∃ u, input.user_id = some u := by
              cases hui : input.user_id with
              | none => rw [hui] at htu; cases htu
              | some u => exact ⟨u, rfl⟩
            have htu2 : truthyId (some u) = true := by rw [← hue]; exact htu
            simp only [recMatchesActor, hue]
            rw [beq_iff_eq, if_pos htu2]
          · obtain ⟨s, hse⟩ : ∃ s, input.session_id = some s := by
              cases hsi : input.session_id with
              | none => rw [hsi] at hts; cases hts
              | some s => exact ⟨s, rfl⟩
            have hts2 : truthyStr (some s) = true := by rw [← hse]; exact hts
            simp only [recMatchesActor, hun, hse]
            rw [beq_iff_eq, if_pos hts2]
        simp only [Bool.and_eq_true]
        exact ⟨⟨by simp, hmatch⟩, hmedia⟩
      rw [h1, h2, List.nil_append]
    · simp only [insertedRecsOf, List.map_map]
      have hmeq : ((List.range (topCandidatesOf input db rnd).length).zip
          (topCandidatesOf input db rnd)).map
          ((fun r : Recommendation => r.id) ∘ fun kc =>
            { id := db.nextRecommendationId + kc.1
              user_id := if truthyId input.user_id then input.user_id else none
              session_id := if truthyStr input.session_id then
                input.session_id else none
              media_item_id := kc.2.item.id
              reason := kc.2.reason
              score := kc.2.score
              shown := false
              created_at := now }) =
          ((List.range (topCandidatesOf input db rnd).length).zip
            (topCandidatesOf input db rnd)).map
            ((fun k => db.nextRecommendationId + k) ∘ Prod.fst) := by
        apply List.map_congr_left
        intro kc _
        rfl
      rw [hmeq, ← List.map_map, List.map_fst_zip _ _
        (le_of_eq (List.length_range _))]
      refine List.Nodup.map ?_ (List.nodup_range _)
      intro a b hab
      exact Nat.add_left_cancel hab

/-- C4: over non-overlapping dispenser calls no row is returned twice (a
fully-shown id stays shown and is never dispensed, and the ids of all
returned rows are pairwise distinct); and generating N rows for an actor
with no prior matching rows followed by N + 1 dispenser calls yields N
results in non-increasing score order and then the none result. -/
theorem c4_at_most_once :
    (∀ (input : GetRecommendationsInput) (n : Nat) (db : DB) (k : Nat),
      (∀ row ∈ db.recommendations, row.id = k → row.shown = true) →
      ∀ row ∈ (popN input n db).2.recommendations, row.id = k →
        row.shown = true) ∧
    (∀ (input : GetRecommendationsInput) (n : Nat) (db : DB),
      List.Nodup (((popN input n db).1.filterMap id).map (fun r => r.id))) ∧
    (∀ (input : GetRecommendationsInput) (rnd now : Nat) (db : DB)
        (recs : List Recommendation) (db' : DB),
      actorCoherent input →
      (∀ r ∈ db.recommendations, recMatchesActor input r = false) →
      generateRecommendations input rnd now db = Except.ok (recs, db') →
      ∃ rs : List Recommendation,
        (popN input (recs.length + 1) db').1 = rs.map some ++ [none] ∧
        rs.length = recs.length ∧
        List.Pairwise (fun a b => b.score ≤ a.score) rs) := by
  refine ⟨?_, ?_, ?_⟩
  · intro input n db k h
    exact (popN_avoids input k n db h).2
  · intro input n db
    exact popN_nodup_ids input n db
  · intro input rnd now db recs db' hco hprior h
    obtain ⟨hpend, hnd⟩ := pending_after_generate hco hprior h
    obtain ⟨rs, h1, h2, h3, _⟩ := popN_drain input recs.length db'
      (by rw [hpend]) (by rw [hpend]; exact hnd)
    exact ⟨rs, h1, h2, h3⟩

/-- C4 witness: generating two rows for a fresh actor and dispensing three
times returns the two rows in score order and then the none result. -/
theorem c4_at_most_once_witness :
    actorCoherent c4Input ∧
      (∀ r ∈ c4DB.recommendations, recMatchesActor c4Input r = false) ∧
      generateRecommendations c4Input 0 0 c4DB =
        Except.ok ([c4Rec1, c4Rec2], c4DBAfter) ∧
      ∃ rs : List Recommendation,
        (popN c4Input 3 c4DBAfter).1 = rs.map some ++ [none] ∧
        rs.length = 2 ∧
        List.Pairwise (fun a b => b.score ≤ a.score) rs := by
  have hgen : generateRecommendations c4Input 0 0 c4DB =
      Except.ok ([c4Rec1, c4Rec2], c4DBAfter) := by
    with_unfolding_all rfl
  have hco : actorCoherent c4Input := Or.inl rfl
  have hpr : ∀ r ∈ c4DB.recommendations, recMatchesActor c4Input r = false := by
    intro r hr
    cases hr
  exact ⟨hco, hpr, hgen,
    c4_at_most_once.2.2 c4Input 0 0 c4DB [c4Rec1, c4Rec2] c4DBAfter hco hpr hgen⟩

/-- C8 amended witness: a truthy user id yields a successful call. -/
theorem c8_amended_invalid_actor_witness :
    truthyId (some 1) = true ∧
      ∃ recs db',
        generateRecommendations
          { user_id := some 1, session_id := none, limit := 10 } 0 0 c8DB =
          Except.ok (recs, db') ∧ recs.length ≤ 10 := by
  refine ⟨rfl, ?_⟩
  exact (c8_amended_invalid_actor
    { user_id := some 1, session_id := none, limit := 10 } 0 0 c8DB).2
    (Or.inl rfl)

end NextWatch
